import Mathlib

/-!
Verification of the `minerva-rs` DRAM-training bindings (`src/lib.rs`).

The crate is a thin sequencing layer over the external `minerva_main` C
primitive. We embed the Rust layer shallowly:

* `MtcConfig` models the fields of `raw::mtc_config_t` that the Rust code
  reads or writes (`sdram_id`, `mtc_table`, `rate_from`, `rate_to`,
  `train_mode`).
* The external training engine `minerva_main` is kept abstract: every
  trainer operation is parameterized by `engine : MtcConfig → MtcConfig`.
  Where a claim relies on the engine contract stated in the spec, the
  hypothesis on `engine` (or the concrete `minerva_main_model`) expresses it.
* The volatile register read `read_clk_src_emc` is modelled by an oracle
  `reads : Nat → Nat` giving the value returned by the k-th read performed
  during the operation.
* Each operation returns, next to its result, the list of hardware `Event`s
  it performs, in program order: `regRead v` for a volatile read of
  `CLK_RST_CONTROLLER_CLK_SOURCE_EMC` returning `v`, and `engineCall c` for
  an invocation `minerva_main(&mut cfg)` with the configuration `c` at call
  time.
-/

/-- The train mode constants of `raw::train_mode_t`. Modelled from the spec:
the C header `mtc.h` that defines `train_mode_t` is not part of the crate
sources; the spec names three modes (full-train, frequency-switch,
periodic-train). Only the distinctness of the three values matters to this
layer. -/
def OP_SWITCH : Nat := 0

/-- Modelled from the spec: the full-train mode constant (see `OP_SWITCH`). -/
def OP_TRAIN : Nat := 1

/-- Modelled from the spec: the periodic-train mode constant (see
`OP_SWITCH`). -/
def OP_PERIODIC_TRAIN : Nat := 3

/-- One record of `raw::emc_table_t`, exposing the two fields the Rust layer
reads: the stored clock-source identifier and the rate in kHz (both `u32`,
modelled as `Nat`). -/
structure EmcTable where
  clk_src_emc : Nat
  rate_khz : Nat
deriving DecidableEq, Repr

/-- The fields of `raw::mtc_config_t` that `lib.rs` touches. `rate_from` and
`rate_to` are `i32` (modelled as `Int`), `sdram_id` and `train_mode` are
`u32` (modelled as `Nat`), and `mtc_table` is a pointer, modelled by whether
it has been set to the trainer's table (it is null in the zeroed config). -/
structure MtcConfig where
  sdram_id : Nat
  mtc_table : Bool
  rate_from : Int
  rate_to : Int
  train_mode : Nat
deriving DecidableEq, Repr

/-- The `u32 as i32` cast used for `self.tables[ram_index].rate_khz as i32`. -/
def u32_to_i32 (n : Nat) : Int :=
  let m := n % 4294967296
  if m < 2147483648 then (m : Int) else (m : Int) - 4294967296

/-- The `Frequency` enum of `lib.rs`. -/
inductive Frequency where
  | Freq204
  | Freq800
  | Freq1600
deriving DecidableEq, Repr

/-- The `Into<i32> for Frequency` conversion of `lib.rs`. -/
def Frequency.into : Frequency → Int
  | .Freq204 => 204000
  | .Freq800 => 800000
  | .Freq1600 => 1600000

/-- A hardware access performed by a trainer operation: a volatile read of
the EMC clock-source register returning `v`, or an invocation of the
external `minerva_main` with configuration `c` at call time. -/
inductive Event where
  | regRead (v : Nat)
  | engineCall (c : MtcConfig)
deriving DecidableEq, Repr

/-- The `MinervaTrainer` struct: the mutable configuration and the borrowed
table of 10 `emc_table_t` records. -/
structure MinervaTrainer where
  cfg : MtcConfig
  tables : Fin 10 → EmcTable

/-- The identities of the five embedded profile blobs (`SDRAM0_NX_ABCA2_0_3`
through `SDRAM4_NX_ABCA2_1_0`). The blobs' byte contents are external binary
assets; each has Rust type `&[u8; 49280]`. -/
inductive ProfileBlob where
  | sdram0
  | sdram1
  | sdram2
  | sdram3
  | sdram4
deriving DecidableEq, Repr

/-- `dram_profile::DRAM_4GB_SAMSUNG_K4F6E304HB_MGCH`. -/
def DRAM_4GB_SAMSUNG_K4F6E304HB_MGCH : Nat := 0

/-- `dram_profile::DRAM_4GB_HYNIX_H9HCNNNBPUMLHR_NLN`. -/
def DRAM_4GB_HYNIX_H9HCNNNBPUMLHR_NLN : Nat := 1

/-- `dram_profile::DRAM_4GB_MICRON_MT53B512M32D2NP_062_WT`. -/
def DRAM_4GB_MICRON_MT53B512M32D2NP_062_WT : Nat := 2

/-- `dram_profile::DRAM_4GB_COPPER_SAMSUNG`. -/
def DRAM_4GB_COPPER_SAMSUNG : Nat := 3

/-- `dram_profile::DRAM_6GB_SAMSUNG_K4FHE3D4HM_MFCH`. -/
def DRAM_6GB_SAMSUNG_K4FHE3D4HM_MFCH : Nat := 4

/-- `dram_profile::DRAM_4GB_COPPER_HYNIX`. -/
def DRAM_4GB_COPPER_HYNIX : Nat := 5

/-- `dram_profile::DRAM_4GB_COPPER_MICRON`. -/
def DRAM_4GB_COPPER_MICRON : Nat := 6

/-- `dram_profile::get_by_sdram_id`: the match over the SDRAM ID constants,
returning the referenced static blob. -/
def get_by_sdram_id (id : Nat) : Option ProfileBlob :=
  if id = DRAM_4GB_SAMSUNG_K4F6E304HB_MGCH then some .sdram0
  else if id = DRAM_4GB_HYNIX_H9HCNNNBPUMLHR_NLN then some .sdram1
  else if id = DRAM_4GB_MICRON_MT53B512M32D2NP_062_WT then some .sdram0
  else if id = DRAM_4GB_COPPER_SAMSUNG then some .sdram0
  else if id = DRAM_6GB_SAMSUNG_K4FHE3D4HM_MFCH then some .sdram0
  else none

/-- The length of every profile blob, fixed by the Rust type `&[u8; 49280]`. -/
def PROFILE_BLOB_LEN : Nat := 49280

/-- The size of one `raw::emc_table_t` record in bytes. Per the SAFETY
comment in `transform_table`, it equals the blob length divided by 10. -/
def emc_table_size : Nat := PROFILE_BLOB_LEN / 10

/-- Byte-level model of `transform_table`: the input type `&[u8; 49280]`
admits only blobs of length 49280 (any other length is rejected at the type
level, modelled by `none`); an accepted blob is reinterpreted in place as 10
consecutive records of `emc_table_size` bytes each. -/
def transform_table (blob : List Nat) : Option (List (List Nat)) :=
  if blob.length = PROFILE_BLOB_LEN then
    some ((List.range 10).map fun i =>
      ((blob.drop (i * emc_table_size)).take emc_table_size))
  else none

/-- `MinervaTrainer::new`. The parsed records of each blob depend on the
blob's byte content, which is an external binary asset; `tablesOf` abstracts
`transform_table(profile)` viewed through the `emc_table_t` fields. The
method performs no hardware access; its event trace is empty. -/
def MinervaTrainer.new (tablesOf : ProfileBlob → Fin 10 → EmcTable)
    (sdram_id : Nat) : Option MinervaTrainer × List Event :=
  match get_by_sdram_id sdram_id with
  | none => (none, [])
  | some profile =>
      (some { cfg := { sdram_id := sdram_id, mtc_table := false,
                       rate_from := 0, rate_to := 0, train_mode := 0 },
              tables := tablesOf profile }, [])

/-- The search loop of `init`:
`(0..10).find(|idx| read_clk_src_emc() == self.tables[*idx].clk_src_emc)`.
Each iteration performs one fresh volatile read; iterating over the index
list `List.finRange 10`, the iteration for index `i` performs the `i`-th
read of the operation, so it observes `reads i.val`. Returns the first
matching index, if any, together with the reads performed. -/
def scanTables (tables : Fin 10 → EmcTable) (reads : Nat → Nat) :
    List (Fin 10) → Option (Fin 10) × List Event
  | [] => (none, [])
  | i :: rest =>
      let v := reads i.val
      if v = (tables i).clk_src_emc then (some i, [Event.regRead v])
      else
        let r := scanTables tables reads rest
        (r.1, Event.regRead v :: r.2)

/-- `MinervaTrainer::init`. Sets the table pointer, scans for the record
matching the live clock source (defaulting to index 0), seeds `rate_from`
from that record, and drives the five-step bring-up sequence through the
engine. -/
def MinervaTrainer.init (engine : MtcConfig → MtcConfig) (reads : Nat → Nat)
    (t : MinervaTrainer) : MinervaTrainer × List Event :=
  let cfg0 := { t.cfg with mtc_table := true }
  let scan := scanTables t.tables reads (List.finRange 10)
  let ram_index : Fin 10 := scan.1.getD ⟨0, by decide⟩
  let cfg1 := { cfg0 with rate_from := u32_to_i32 (t.tables ram_index).rate_khz }
  let cfg2 := { cfg1 with rate_to := Frequency.Freq204.into,
                          train_mode := OP_TRAIN }
  let cfg3 := engine cfg2
  let cfg4 := { cfg3 with rate_to := Frequency.Freq800.into }
  let cfg5 := engine cfg4
  let cfg6 := { cfg5 with rate_to := Frequency.Freq1600.into }
  let cfg7 := engine cfg6
  let cfg8 := { cfg7 with train_mode := OP_SWITCH,
                          rate_to := Frequency.Freq800.into }
  let cfg9 := engine cfg8
  let cfg10 := { cfg9 with rate_to := Frequency.Freq1600.into }
  let cfg11 := engine cfg10
  ({ t with cfg := cfg11 },
   scan.2 ++ [Event.engineCall cfg2, Event.engineCall cfg4,
              Event.engineCall cfg6, Event.engineCall cfg8,
              Event.engineCall cfg10])

/-- `MinervaTrainer::change_frequency`. -/
def MinervaTrainer.change_frequency (engine : MtcConfig → MtcConfig)
    (t : MinervaTrainer) (freq : Frequency) : MinervaTrainer × List Event :=
  let f := freq.into
  if t.cfg.rate_from ≠ f then
    let cfg1 := { t.cfg with rate_to := f, train_mode := OP_SWITCH }
    ({ t with cfg := engine cfg1 }, [Event.engineCall cfg1])
  else (t, [])

/-- `MinervaTrainer::periodic_training`. -/
def MinervaTrainer.periodic_training (engine : MtcConfig → MtcConfig)
    (t : MinervaTrainer) : MinervaTrainer × List Event :=
  if t.cfg.rate_from = Frequency.Freq1600.into then
    let cfg1 := { t.cfg with train_mode := OP_PERIODIC_TRAIN }
    ({ t with cfg := engine cfg1 }, [Event.engineCall cfg1])
  else (t, [])

/-- Modelled from the spec: the external `minerva_main` primitive (the C
training engine is not part of the crate sources). Per the spec's engine
contract it "overwrites the configuration's current-rate field with the new
steady-state rate on success" and mutates nothing else visible at this
layer. -/
def minerva_main_model (c : MtcConfig) : MtcConfig :=
  { c with rate_from := c.rate_to }

/-- The engine invocations of a trace, each as its configuration at call
time. -/
def engineCalls (evs : List Event) : List MtcConfig :=
  evs.filterMap fun e =>
    match e with
    | .engineCall c => some c
    | .regRead _ => none

/-- The volatile register reads of a trace. -/
def regReads (evs : List Event) : List Nat :=
  evs.filterMap fun e =>
    match e with
    | .regRead v => some v
    | .engineCall _ => none

/-- A trainer state with all-zero configuration over a concrete table whose
record `i` stores clock-source identifier `i` and rate `1000 + i` kHz. Used
as the concrete instance for witnesses and counterexamples. -/
def cexTables : Fin 10 → EmcTable := fun i =>
  { clk_src_emc := i.val, rate_khz := 1000 + i.val }

/-- A concrete trainer over `cexTables`. -/
def cexTrainer : MinervaTrainer :=
  { cfg := { sdram_id := 0, mtc_table := false, rate_from := 0, rate_to := 0,
             train_mode := 0 },
    tables := cexTables }

/-- A read oracle: the first volatile read returns 100, later reads return 1. -/
def cexReads1 : Nat → Nat := fun k => if k = 0 then 100 else 1

/-- A read oracle: the first volatile read returns 100, later reads return 2. -/
def cexReads2 : Nat → Nat := fun k => if k = 0 then 100 else 2

/-- A concrete trainer over `cexTables` whose current rate is 1600000 kHz
and whose target-rate field holds the unrelated value 123. -/
def cexTrainer1600 : MinervaTrainer :=
  { cfg := { sdram_id := 0, mtc_table := true, rate_from := 1600000,
             rate_to := 123, train_mode := 0 },
    tables := cexTables }

/-- A concrete trainer over `cexTables` whose current rate is already
800000 kHz. -/
def cexTrainer800 : MinervaTrainer :=
  { cfg := { sdram_id := 0, mtc_table := true, rate_from := 800000,
             rate_to := 800000, train_mode := 0 },
    tables := cexTables }

/-- The record selection policy as the spec words it: given the single live
clock-source value `v`, the first of the 10 records whose stored identifier
equals `v`, defaulting to index 0 when none matches. -/
def specSelectedIndex (tables : Fin 10 → EmcTable) (v : Nat) : Fin 10 :=
  (((List.finRange 10).filter fun i =>
      v == (tables i).clk_src_emc).head?).getD ⟨0, by decide⟩

theorem engineCalls_append (l1 l2 : List Event) :
    engineCalls (l1 ++ l2) = engineCalls l1 ++ engineCalls l2 := by
  simp [engineCalls]

theorem scanTables_engineCalls (tables : Fin 10 → EmcTable)
    (reads : Nat → Nat) :
    ∀ l : List (Fin 10), engineCalls (scanTables tables reads l).2 = [] := by
  intro l
  induction l with
  | nil => rfl
  | cons i rest ih =>
      by_cases h : reads i.val = (tables i).clk_src_emc
      · simp [scanTables, h, engineCalls]
      · simpa [scanTables, h, engineCalls] using ih

theorem scanTables_no_match (tables : Fin 10 → EmcTable) (reads : Nat → Nat) :
    ∀ l : List (Fin 10),
      (∀ i ∈ l, reads i.val ≠ (tables i).clk_src_emc) →
      (scanTables tables reads l).1 = none := by
  intro l
  induction l with
  | nil => intro _; rfl
  | cons i rest ih =>
      intro h
      have hi : reads i.val ≠ (tables i).clk_src_emc := h i (by simp)
      have hrest := ih fun j hj => h j (by simp [hj])
      simp [scanTables, hi, hrest]

/-- C1: for every trainer, `init()` issues exactly five `minerva_main`
invocations, whose (mode, target-rate-kHz) pairs are, in order:
(full-train, 204000), (full-train, 800000), (full-train, 1600000),
(frequency-switch, 800000), (frequency-switch, 1600000). The hypothesis is
the spec's engine contract restricted to what this claim needs: the engine
does not alter the `train_mode` field it is handed. -/
theorem init_issues_five_steps (engine : MtcConfig → MtcConfig)
    (reads : Nat → Nat) (t : MinervaTrainer)
    (hMode : ∀ c, (engine c).train_mode = c.train_mode) :
    (engineCalls (MinervaTrainer.init engine reads t).2).map
        (fun c => (c.train_mode, c.rate_to)) =
      [(OP_TRAIN, 204000), (OP_TRAIN, 800000), (OP_TRAIN, 1600000),
       (OP_SWITCH, 800000), (OP_SWITCH, 1600000)] := by
  simp only [MinervaTrainer.init, engineCalls_append, scanTables_engineCalls,
             List.nil_append]
  simp [engineCalls, hMode, Frequency.into]

theorem init_issues_five_steps_witness :
    (engineCalls
        (MinervaTrainer.init minerva_main_model cexReads1 cexTrainer).2).map
        (fun c => (c.train_mode, c.rate_to)) =
      [(OP_TRAIN, 204000), (OP_TRAIN, 800000), (OP_TRAIN, 1600000),
       (OP_SWITCH, 800000), (OP_SWITCH, 1600000)] :=
  init_issues_five_steps minerva_main_model cexReads1 cexTrainer fun _ => rfl

/-- C3: if the live clock-source reads match no record, `init()` proceeds
with record index 0: the first engine invocation carries
`rate_from` = record 0's `rate_khz` (cast `u32 as i32`), and the full
five-invocation bring-up sequence is still issued. -/
theorem init_unmatched_defaults (engine : MtcConfig → MtcConfig)
    (reads : Nat → Nat) (t : MinervaTrainer)
    (h : ∀ i : Fin 10, reads i.val ≠ (t.tables i).clk_src_emc) :
    ((engineCalls (MinervaTrainer.init engine reads t).2).head?.map
        (fun c => c.rate_from) =
      some (u32_to_i32 (t.tables ⟨0, by decide⟩).rate_khz))
    ∧ (engineCalls (MinervaTrainer.init engine reads t).2).length = 5 := by
  have hscan := scanTables_no_match t.tables reads (List.finRange 10)
    fun i _ => h i
  constructor
  · simp only [MinervaTrainer.init, engineCalls_append,
               scanTables_engineCalls, List.nil_append, hscan]
    simp [engineCalls]
  · simp only [MinervaTrainer.init, engineCalls_append,
               scanTables_engineCalls, List.nil_append]
    simp [engineCalls]

theorem init_unmatched_defaults_witness :
    (((engineCalls
        (MinervaTrainer.init minerva_main_model (fun _ => 100)
          cexTrainer).2).head?.map (fun c => c.rate_from) =
      some (u32_to_i32 (cexTrainer.tables ⟨0, by decide⟩).rate_khz))
    ∧ (engineCalls
        (MinervaTrainer.init minerva_main_model (fun _ => 100)
          cexTrainer).2).length = 5) :=
  init_unmatched_defaults minerva_main_model (fun _ => 100) cexTrainer
    (by decide)

/-- C4: `change_frequency(f)` is a complete no-op (no state change, no
hardware access) when `f`'s kHz value equals the configuration's current
rate; otherwise it issues exactly one engine invocation with
mode = frequency-switch and target rate = `f`'s kHz value. If the engine
leaves `rate_from` alone, so does the whole call: the trainer itself never
writes the current-rate field. -/
theorem change_frequency_spec (engine : MtcConfig → MtcConfig)
    (t : MinervaTrainer) (freq : Frequency)
    (hEng : ∀ c, (engine c).rate_from = c.rate_from) :
    (t.cfg.rate_from = freq.into →
        MinervaTrainer.change_frequency engine t freq = (t, []))
    ∧ (t.cfg.rate_from ≠ freq.into →
        (engineCalls (MinervaTrainer.change_frequency engine t freq).2).map
            (fun c => (c.train_mode, c.rate_to)) = [(OP_SWITCH, freq.into)])
    ∧ (MinervaTrainer.change_frequency engine t freq).1.cfg.rate_from
        = t.cfg.rate_from := by
  refine ⟨?_, ?_, ?_⟩
  · intro h
    simp [MinervaTrainer.change_frequency, h]
  · intro h
    simp [MinervaTrainer.change_frequency, h, engineCalls]
  · by_cases h : t.cfg.rate_from = freq.into
    · simp [MinervaTrainer.change_frequency, h]
    · simp [MinervaTrainer.change_frequency, h, hEng]

theorem change_frequency_spec_witness :
    (engineCalls
        (MinervaTrainer.change_frequency id cexTrainer Frequency.Freq800).2).map
        (fun c => (c.train_mode, c.rate_to)) =
      [(OP_SWITCH, Frequency.Freq800.into)] :=
  (change_frequency_spec id cexTrainer Frequency.Freq800 fun _ => rfl).2.1
    (by decide)

/-- C5: `periodic_training()` issues exactly one engine invocation with
mode = periodic-train when the current rate is 1600000 kHz — the
invocation's target-rate field is whatever it was before the call — and is
a complete no-op otherwise. If the engine leaves `rate_to` alone, the
target-rate field is unchanged by the whole call in the eligible case. -/
theorem periodic_training_spec (engine : MtcConfig → MtcConfig)
    (t : MinervaTrainer)
    (hEng : ∀ c, (engine c).rate_to = c.rate_to) :
    (t.cfg.rate_from = Frequency.Freq1600.into →
        (engineCalls (MinervaTrainer.periodic_training engine t).2).map
            (fun c => (c.train_mode, c.rate_to)) =
          [(OP_PERIODIC_TRAIN, t.cfg.rate_to)]
        ∧ (MinervaTrainer.periodic_training engine t).1.cfg.rate_to
            = t.cfg.rate_to)
    ∧ (t.cfg.rate_from ≠ Frequency.Freq1600.into →
        MinervaTrainer.periodic_training engine t = (t, [])) := by
  constructor
  · intro h
    constructor
    · simp [MinervaTrainer.periodic_training, h, engineCalls]
    · simp [MinervaTrainer.periodic_training, h, hEng]
  · intro h
    simp [MinervaTrainer.periodic_training, h]

theorem periodic_training_spec_witness :
    (engineCalls
        (MinervaTrainer.periodic_training minerva_main_model
          cexTrainer1600).2).map (fun c => (c.train_mode, c.rate_to)) =
      [(OP_PERIODIC_TRAIN, cexTrainer1600.cfg.rate_to)]
    ∧ (MinervaTrainer.periodic_training minerva_main_model
        cexTrainer1600).1.cfg.rate_to = cexTrainer1600.cfg.rate_to :=
  (periodic_training_spec minerva_main_model cexTrainer1600 fun _ => rfl).1
    (by decide)

/-- C6 (amended): under the engine contract that an invocation overwrites
`rate_from` with the requested `rate_to`, two consecutive
`change_frequency` calls with the same frequency issue in total one engine
invocation when the initial current rate differs from the target's kHz
value, and zero when it already equals it — never two: the second call
observes the updated current rate and no-ops. -/
theorem change_frequency_twice (engine : MtcConfig → MtcConfig)
    (t : MinervaTrainer) (freq : Frequency)
    (hEng : ∀ c, (engine c).rate_from = c.rate_to) :
    (engineCalls ((MinervaTrainer.change_frequency engine t freq).2 ++
        (MinervaTrainer.change_frequency engine
          (MinervaTrainer.change_frequency engine t freq).1 freq).2)).length
      = (if t.cfg.rate_from = freq.into then 0 else 1) := by
  by_cases h : t.cfg.rate_from = freq.into
  · simp [MinervaTrainer.change_frequency, h, engineCalls]
  · simp [MinervaTrainer.change_frequency, h, hEng, engineCalls]

theorem change_frequency_twice_witness :
    (engineCalls
        ((MinervaTrainer.change_frequency minerva_main_model cexTrainer
            Frequency.Freq800).2 ++
          (MinervaTrainer.change_frequency minerva_main_model
            (MinervaTrainer.change_frequency minerva_main_model cexTrainer
              Frequency.Freq800).1 Frequency.Freq800).2)).length
      = (if cexTrainer.cfg.rate_from = Frequency.Freq800.into then 0 else 1) :=
  change_frequency_twice minerva_main_model cexTrainer Frequency.Freq800
    fun _ => rfl

/-- C6's claim as frozen is false: starting from a trainer whose current
rate already equals the target (here 800000 kHz), two consecutive
`change_frequency(Freq800)` calls issue zero engine invocations in total,
not exactly one. -/
theorem change_frequency_twice_counterexample :
    cexTrainer800.cfg.rate_from = Frequency.Freq800.into
    ∧ (engineCalls
        ((MinervaTrainer.change_frequency minerva_main_model cexTrainer800
            Frequency.Freq800).2 ++
          (MinervaTrainer.change_frequency minerva_main_model
            (MinervaTrainer.change_frequency minerva_main_model cexTrainer800
              Frequency.Freq800).1 Frequency.Freq800).2)).length = 0 := by
  exact ⟨rfl, by decide⟩

theorem regReads_append (l1 l2 : List Event) :
    regReads (l1 ++ l2) = regReads l1 ++ regReads l2 := by
  simp [regReads]

theorem scanTables_regReads_len (tables : Fin 10 → EmcTable)
    (reads : Nat → Nat) :
    ∀ l : List (Fin 10),
      (regReads (scanTables tables reads l).2).length =
        (scanTables tables reads l).2.length := by
  intro l
  induction l with
  | nil => rfl
  | cons i rest ih =>
      by_cases h : reads i.val = (tables i).clk_src_emc
      · simp [scanTables, h, regReads]
      · simp only [scanTables, h, if_false, ite_false]
        simpa [regReads] using ih

theorem scanTables_const_sel (tables : Fin 10 → EmcTable) (v : Nat) :
    ∀ l : List (Fin 10),
      (scanTables tables (fun _ => v) l).1 =
        (l.filter fun i => v == (tables i).clk_src_emc).head? := by
  intro l
  induction l with
  | nil => rfl
  | cons i rest ih =>
      by_cases h : v = (tables i).clk_src_emc
      · simp [scanTables, List.filter_cons, h]
      · simp [scanTables, List.filter_cons, h, ih]

theorem scanTables_const_len (tables : Fin 10 → EmcTable) (v : Nat) :
    ∀ l : List (Fin 10),
      (scanTables tables (fun _ => v) l).2.length =
        min ((l.findIdx fun i => v == (tables i).clk_src_emc) + 1)
          l.length := by
  intro l
  induction l with
  | nil => rfl
  | cons i rest ih =>
      by_cases h : v = (tables i).clk_src_emc
      · simp [scanTables, List.findIdx_cons, h]
      · have hb : (v == (tables i).clk_src_emc) = false := by
          simpa using h
        simp only [scanTables, h, if_false, ite_false, List.findIdx_cons, hb,
                   cond_false, List.length_cons]
        rw [ih]
        omega

/-- C2's claim as frozen is false on the code: the register is re-read on
every scan iteration. Over `cexTables` (record `i` stores identifier `i`
and rate `1000 + i`), the run whose successive reads are 100, 1, 1, ...
performs two register reads, not one, and the run whose reads are
100, 2, 2, ... — same first read value 100 — seeds the first engine
invocation from record 2 (rate 1002) instead of record 1 (rate 1001), so
the selected record does not depend only on the first value read. -/
theorem init_single_read_counterexample :
    cexReads1 0 = cexReads2 0
    ∧ (regReads (MinervaTrainer.init minerva_main_model cexReads1
        cexTrainer).2).length = 2
    ∧ ((engineCalls (MinervaTrainer.init minerva_main_model cexReads1
        cexTrainer).2).head?.map fun c => c.rate_from) = some 1001
    ∧ ((engineCalls (MinervaTrainer.init minerva_main_model cexReads2
        cexTrainer).2).head?.map fun c => c.rate_from) = some 1002 := by
  refine ⟨rfl, ?_, ?_, ?_⟩ <;> decide

/-- C2 (amended): `init()` performs one clock-source register read per
scanned record — `min(k+1, 10)` reads in total, where `k` is the first
index whose stored identifier equals the value its own iteration read
(`k = 10` when none matches) — rather than exactly one read; record `i` is
compared against the `i`-th read value. When the register returns the same
value `v` at every read, the selected record is the first whose stored
identifier equals `v`, index 0 when none matches, observable as the
`rate_from` seeded into the first engine invocation. -/
theorem init_read_behavior (engine : MtcConfig → MtcConfig)
    (reads : Nat → Nat) (t : MinervaTrainer) (v : Nat)
    (hv : ∀ k, reads k = v) :
    (regReads (MinervaTrainer.init engine reads t).2).length =
      min (((List.finRange 10).findIdx fun i =>
          v == (t.tables i).clk_src_emc) + 1) 10
    ∧ ((engineCalls (MinervaTrainer.init engine reads t).2).head?.map
        fun c => c.rate_from) =
      some (u32_to_i32 (t.tables (specSelectedIndex t.tables v)).rate_khz) := by
  have hr : reads = fun _ => v := funext hv
  subst hr
  constructor
  · simp only [MinervaTrainer.init, regReads_append, List.length_append]
    rw [scanTables_regReads_len, scanTables_const_len]
    simp [regReads, List.length_finRange]
  · simp only [MinervaTrainer.init, engineCalls_append,
               scanTables_engineCalls, List.nil_append]
    simp [engineCalls, specSelectedIndex, scanTables_const_sel]

theorem init_read_behavior_witness :
    (regReads (MinervaTrainer.init minerva_main_model (fun _ => 3)
        cexTrainer).2).length =
      min (((List.finRange 10).findIdx fun i =>
          3 == (cexTrainer.tables i).clk_src_emc) + 1) 10
    ∧ ((engineCalls (MinervaTrainer.init minerva_main_model (fun _ => 3)
        cexTrainer).2).head?.map fun c => c.rate_from) =
      some (u32_to_i32 (cexTrainer.tables
        (specSelectedIndex cexTrainer.tables 3)).rate_khz) :=
  init_read_behavior minerva_main_model (fun _ => 3) cexTrainer 3 fun _ => rfl

theorem flatten_chunks {α : Type} (s : Nat) :
    ∀ (n : Nat) (l : List α), l.length = n * s →
      ((List.range n).map fun i => ((l.drop (i * s)).take s)).flatten = l := by
  intro n
  induction n with
  | zero =>
      intro l hl
      have hnil : l = [] := List.length_eq_zero.mp (by simpa using hl)
      simp [hnil]
  | succ n ih =>
      intro l hl
      rw [List.range_succ_eq_map, List.map_cons, List.map_map,
          List.flatten_cons]
      have hdl : (l.drop s).length = n * s := by
        rw [List.length_drop, hl, Nat.succ_mul]
        omega
      have hfun : ((fun i => (l.drop (i * s)).take s) ∘ Nat.succ)
          = fun i => (((l.drop s).drop (i * s)).take s) := by
        funext i
        simp only [Function.comp_apply, List.drop_drop, Nat.succ_mul]
        rw [Nat.add_comm]
      rw [hfun, ih (l.drop s) hdl]
      simp

/-- C9: `transform_table` accepts no blob whose length is not a multiple of
10 (its input type admits only 49280-byte blobs, and 49280 is a multiple of
10); on an accepted blob the record size is exactly length / 10 and the 10
parsed records are contiguous, non-overlapping and cover the whole blob:
each has length `emc_table_size` and their concatenation is the blob
itself. -/
theorem transform_table_spec (blob : List Nat) :
    (∀ recs, transform_table blob = some recs → blob.length % 10 = 0)
    ∧ (blob.length = PROFILE_BLOB_LEN →
        ∃ recs, transform_table blob = some recs
          ∧ recs.length = 10
          ∧ emc_table_size = blob.length / 10
          ∧ (∀ r ∈ recs, r.length = emc_table_size)
          ∧ recs.flatten = blob) := by
  constructor
  · intro recs h
    unfold transform_table at h
    by_cases hl : blob.length = PROFILE_BLOB_LEN
    · rw [hl]
      decide
    · simp [hl] at h
  · intro hl
    refine ⟨(List.range 10).map fun i =>
        ((blob.drop (i * emc_table_size)).take emc_table_size),
      ?_, by simp, by rw [hl]; rfl, ?_, ?_⟩
    · simp [transform_table, hl]
    · intro r hr
      simp only [List.mem_map, List.mem_range] at hr
      obtain ⟨i, hi, rfl⟩ := hr
      rw [List.length_take, List.length_drop, hl]
      unfold emc_table_size PROFILE_BLOB_LEN
      omega
    · exact flatten_chunks emc_table_size 10 blob (by rw [hl]; decide)

theorem transform_table_spec_witness :
    (List.replicate PROFILE_BLOB_LEN 0).length % 10 = 0 :=
  (transform_table_spec (List.replicate PROFILE_BLOB_LEN 0)).1
    ((List.range 10).map fun i =>
      (((List.replicate PROFILE_BLOB_LEN (0 : Nat)).drop
        (i * emc_table_size)).take emc_table_size))
    (by simp [transform_table])

/-- C7: `get_by_sdram_id` returns a blob exactly for the supported
identities (0 through 4), and every returned blob — its length being fixed
at 49280 bytes by its Rust type, recorded in the hypothesis — parses via
`transform_table` into exactly 10 records. -/
theorem get_by_sdram_id_ten_records (bytes : ProfileBlob → List Nat)
    (hlen : ∀ b, (bytes b).length = PROFILE_BLOB_LEN) (id : Nat) :
    ((get_by_sdram_id id).isSome ↔ id < 5)
    ∧ (∀ b, get_by_sdram_id id = some b →
        (transform_table (bytes b)).map List.length = some 10) := by
  constructor
  · simp only [get_by_sdram_id, DRAM_4GB_SAMSUNG_K4F6E304HB_MGCH,
        DRAM_4GB_HYNIX_H9HCNNNBPUMLHR_NLN,
        DRAM_4GB_MICRON_MT53B512M32D2NP_062_WT, DRAM_4GB_COPPER_SAMSUNG,
        DRAM_6GB_SAMSUNG_K4FHE3D4HM_MFCH]
    split_ifs with h0 h1 h2 h3 h4 <;> simp <;> omega
  · intro b _
    simp [transform_table, hlen]

theorem get_by_sdram_id_ten_records_witness :
    (transform_table (List.replicate PROFILE_BLOB_LEN 0)).map List.length
      = some 10 :=
  (get_by_sdram_id_ten_records (fun _ => List.replicate PROFILE_BLOB_LEN 0)
    (fun _ => by simp) 1).2 ProfileBlob.sdram1 (by decide)

/-- C8: `MinervaTrainer::new` succeeds exactly when the registry supports
the SDRAM ID, performs no hardware access in either case (empty event
trace), and on success the configuration has the chip identity set and
every other field zeroed (null table pointer, zero rates, zero mode). -/
theorem new_spec (tablesOf : ProfileBlob → Fin 10 → EmcTable) (id : Nat) :
    ((MinervaTrainer.new tablesOf id).1.isSome ↔ (get_by_sdram_id id).isSome)
    ∧ (MinervaTrainer.new tablesOf id).2 = []
    ∧ (∀ t, (MinervaTrainer.new tablesOf id).1 = some t →
        t.cfg = { sdram_id := id, mtc_table := false, rate_from := 0,
                  rate_to := 0, train_mode := 0 }) := by
  refine ⟨?_, ?_, ?_⟩
  · unfold MinervaTrainer.new
    rcases get_by_sdram_id id with _ | p <;> simp
  · unfold MinervaTrainer.new
    rcases get_by_sdram_id id with _ | p <;> simp
  · unfold MinervaTrainer.new
    rcases get_by_sdram_id id with _ | p
    · simp
    · intro t ht
      simp only [Option.some.injEq] at ht
      subst ht
      rfl

theorem new_spec_witness :
    cexTrainer.cfg = { sdram_id := 0, mtc_table := false, rate_from := 0,
                       rate_to := 0, train_mode := 0 } :=
  (new_spec (fun _ => cexTables) 0).2.2 cexTrainer rfl

/-- C10: `get_by_sdram_id` returns a blob exactly for IDs 0 through 4; the
declared constants for the Copper Hynix (5) and Copper Micron (6) parts
resolve to nothing, while IDs 0, 2, 3 and 4 all resolve to the same SDRAM0
blob and ID 1 to the SDRAM1 blob. -/
theorem get_by_sdram_id_support :
    (∀ id : Nat, (get_by_sdram_id id).isSome ↔ id < 5)
    ∧ get_by_sdram_id DRAM_4GB_COPPER_HYNIX = none
    ∧ get_by_sdram_id DRAM_4GB_COPPER_MICRON = none
    ∧ get_by_sdram_id DRAM_4GB_SAMSUNG_K4F6E304HB_MGCH
        = some ProfileBlob.sdram0
    ∧ get_by_sdram_id DRAM_4GB_MICRON_MT53B512M32D2NP_062_WT
        = some ProfileBlob.sdram0
    ∧ get_by_sdram_id DRAM_4GB_COPPER_SAMSUNG = some ProfileBlob.sdram0
    ∧ get_by_sdram_id DRAM_6GB_SAMSUNG_K4FHE3D4HM_MFCH
        = some ProfileBlob.sdram0
    ∧ get_by_sdram_id DRAM_4GB_HYNIX_H9HCNNNBPUMLHR_NLN
        = some ProfileBlob.sdram1 := by
  refine ⟨fun id => ?_, by decide, by decide, by decide, by decide,
          by decide, by decide, by decide⟩
  simp only [get_by_sdram_id, DRAM_4GB_SAMSUNG_K4F6E304HB_MGCH,
      DRAM_4GB_HYNIX_H9HCNNNBPUMLHR_NLN,
      DRAM_4GB_MICRON_MT53B512M32D2NP_062_WT, DRAM_4GB_COPPER_SAMSUNG,
      DRAM_6GB_SAMSUNG_K4FHE3D4HM_MFCH]
  split_ifs with h0 h1 h2 h3 h4 <;> simp <;> omega
